import Mathlib

/-!
Verification of the UXP `storage` filesystem API surface declared in
`src/types/uxp.d.ts`. The source file is a TypeScript declaration file:
it declares the classes `Entry`, `File`, `Folder`, `EntryMetadata`,
`FileSystemProvider`, the option records, the error taxonomy and the
symbol namespaces, but contains no executable bodies. The behavioural
definitions below are therefore modelled from the specification text
(sections 3, 4 and 8 of the spec), which describes the minimal semantics
the declared surface implies. Asynchronous results (Promises) are
modelled as pure values, with `Except` for operations the spec says can
fail; the not-found failure of `getEntry` is modelled by `Option.none`
because the declared error taxonomy contains no not-found kind.
-/

namespace storage

/-- Error kinds, one per class declared in the `storage.errors` namespace
of `src/types/uxp.d.ts` (lines 261-297). -/
inductive FsError where
  | AbstractMethodInvocationError
  | ProviderMismatchError
  | EntryIsNotAnEntryError
  | EntryIsNotAFolderError
  | EntryIsNotAFileError
  | NotAFileSystemError
  | OutOfSpaceError
  | PermissionDeniedError
  | EntryExistsError
  | FileIsReadOnlyError
  | DomainNotSupportedError
  | InvalidFileNameError
  deriving DecidableEq

/-- File access modes, from the `storage.modes` namespace (`readOnly`,
`readWrite`), identity-compared tokens per the spec. -/
inductive Mode where
  | readOnly
  | readWrite
  deriving DecidableEq

/-- File data formats, from the `storage.formats` namespace
(`utf8`, `binary`). -/
inductive FileFormat where
  | utf8
  | binary
  deriving DecidableEq

/-- Storage domains, from the `storage.domains` namespace. -/
inductive Domain where
  | userDesktop
  | userDocuments
  | userPictures
  | userVideos
  | userMusic
  | appLocalData
  | appLocalLibrary
  | appLocalCache
  | appLocalShared
  | appLocalTemporary
  | appRoamingData
  | appRoamingLibrary
  deriving DecidableEq

/-- Modelled from the spec: data passed to `File.write`, carrying one of
the two declared formats. The source declares `write(data: string |
ArrayBuffer, options)`; the format tag of the payload plays the role of
the `format` option symbol. -/
inductive FileData where
  | utf8 (s : String)
  | binary (b : List Nat)

/-- Modelled from the spec: the byte content a data value denotes. Text
is modelled at the level of code points; only concatenation matters for
the stated properties. -/
def encode : FileData → List Nat
  | .utf8 s => s.data.map Char.toNat
  | .binary b => b

/-- Modelled from the spec: an Entry is the base of the two variants
`File` and `Folder` (spec section 3). A file carries its `mode` and its
current content; a folder carries its child entries. The host-backed
fields (`provider`, `url`, `nativePath`, dates) live behind the provider
boundary and are external to this model. -/
inductive Entry where
  | file (name : String) (mode : Mode) (content : List Nat)
  | folder (name : String) (children : List Entry)

/-- The name of an entry (the `Entry.name` field of the source). -/
def Entry.name : Entry → String
  | .file nm _ _ => nm
  | .folder nm _ => nm

/-- The children of an entry; a file has none. -/
def Entry.children : Entry → List Entry
  | .file _ _ _ => []
  | .folder _ cs => cs

/-- The `Entry.isFile` flag: true exactly on the file variant. -/
def Entry.isFile : Entry → Bool
  | .file _ _ _ => true
  | .folder _ _ => false

/-- The `Entry.isFolder` flag: true exactly on the folder variant. -/
def Entry.isFolder : Entry → Bool
  | .file _ _ _ => false
  | .folder _ _ => true

/-- Replace the child list of an entry; a file is unchanged. -/
def Entry.setChildren : Entry → List Entry → Entry
  | .file nm m c, _ => .file nm m c
  | .folder nm _, cs => .folder nm cs

/-- Rename an entry, keeping its payload. -/
def Entry.rename : Entry → String → Entry
  | .file _ m c, nm => .file nm m c
  | .folder _ cs, nm => .folder nm cs

/-- Modelled from the spec: an arbitrary runtime value passed to the
static type predicates, which the source types as `any`. It can be
`null`, `undefined`, a valid entry, or some other non-Entry value. -/
inductive Value where
  | null
  | undefined
  | entryVal (n : Entry)
  | otherVal (s : String)

/-- Whether a runtime value is a valid Entry. -/
def Value.isEntry : Value → Bool
  | .entryVal _ => true
  | _ => false

/-- Modelled from the spec: the static safe type predicate
`File.isFile(entry: any)` (source lines 205-209): true exactly on values
that are file entries, false on everything else, never failing. -/
def File.isFile : Value → Bool
  | .entryVal n => n.isFile
  | _ => false

/-- Modelled from the spec: the static type predicate
`Folder.isFolder(entry: any)` (source line 256). -/
def Folder.isFolder : Value → Bool
  | .entryVal n => n.isFolder
  | _ => false

/-- Metadata snapshot for an entry (source class `EntryMetadata`, lines
145-170). The date fields are host state external to this model. -/
structure EntryMetadata where
  name : String
  size : Nat
  isFile : Bool
  isFolder : Bool

/-- Modelled from the spec: `Entry.getMetadata` produces an on-demand
snapshot; the source documents `size` as the size of the entry if a
file, zero if a folder (lines 150-153). -/
def Entry.getMetadata : Entry → EntryMetadata
  | .file nm _ c => { name := nm, size := c.length, isFile := true, isFolder := false }
  | .folder nm _ => { name := nm, size := 0, isFile := false, isFolder := true }

/-- Options for `Entry.copyTo` (source interface `CopyToOptions`,
lines 3-8); `overwrite` defaults to false per the source doc comment. -/
structure CopyToOptions where
  overwrite : Bool := false

/-- Options for `Entry.moveTo` (source interface `MoveToOptions`,
lines 10-19). -/
structure MoveToOptions where
  overwrite : Bool
  newName : Option String := none

/-- Options for `File.read` (source interface `FileReadOptions`). -/
structure FileReadOptions where
  format : Option FileFormat := none

/-- Options for `File.write` (source interface `FileWriteOptions`). In
this model the format of the payload is carried by the `FileData`
constructor, so the `format` field is informational. -/
structure FileWriteOptions where
  format : Option FileFormat := none
  append : Bool := false

/-- Modelled from the spec: `Entry.copyTo(folder, options)` (source
lines 101-111). The destination folder is represented by its child
list. The call fails with `EntryExistsError` when the destination
already holds a child with the same name and `overwrite` is false;
otherwise it succeeds, returning the new entry together with the
updated child list of the destination. Backend failures
(`PermissionDeniedError`, `OutOfSpaceError`) are host conditions
external to this model. -/
def Entry.copyTo (E : Entry) (D : List Entry) (opts : CopyToOptions) :
    Except FsError (Entry × List Entry) :=
  if D.any (fun n => n.name = E.name) && !opts.overwrite then
    .error .EntryExistsError
  else
    .ok (E, D.filter (fun n => n.name ≠ E.name) ++ [E])

/-- Modelled from the spec: the child list of the destination folder
after a `copyTo` call; a failed call leaves the destination unchanged
(spec section 7: a failed operation only reports its failure kind). -/
def copyToChildren (E : Entry) (D : List Entry) (opts : CopyToOptions) : List Entry :=
  match Entry.copyTo E D opts with
  | .ok (_, cs) => cs
  | .error _ => D

/-- Modelled from the spec: `Entry.moveTo(folder, options)` (source
lines 113-120). `S` is the child list of the source folder holding the
entry and `D` the child list of the destination. The entry keeps its
name unless `newName` is given. On success the entry leaves the source
location and appears in the destination under its final name. -/
def Entry.moveTo (E : Entry) (S D : List Entry) (opts : MoveToOptions) :
    Except FsError (List Entry × List Entry) :=
  let finalName := opts.newName.getD E.name
  if D.any (fun n => n.name = finalName) && !opts.overwrite then
    .error .EntryExistsError
  else
    .ok (S.filter (fun n => n.name ≠ E.name),
         D.filter (fun n => n.name ≠ finalName) ++ [E.rename finalName])

/-- Modelled from the spec: `File.write(data, options)` (source lines
191-203). Writing to a read-only file fails with `FileIsReadOnlyError`;
with `append` true the data is concatenated at end of file, otherwise
the prior content is fully replaced. Writing through a folder entry is
not a file operation. -/
def writeFile (f : Entry) (data : FileData) (opts : FileWriteOptions) :
    Except FsError Entry :=
  match f with
  | .file nm m c =>
      if m = Mode.readOnly then .error .FileIsReadOnlyError
      else .ok (.file nm m ((if opts.append then c else []) ++ encode data))
  | .folder _ _ => .error .EntryIsNotAFileError

/-- Modelled from the spec: the file after a `write` call; a failed
write leaves the file unchanged. -/
def writeApply (f : Entry) (data : FileData) (opts : FileWriteOptions) : Entry :=
  match writeFile f data opts with
  | .ok f2 => f2
  | .error _ => f

/-- Modelled from the spec: `File.read(options)` (source lines 183-189)
returns the current content of the file; it never fails with
`FileIsReadOnlyError`. Decoding the bytes to text under the `utf8`
format is a presentation concern outside this model. -/
def readFile (f : Entry) (opts : FileReadOptions) : Except FsError (List Nat) :=
  match f, opts with
  | .file _ _ c, _ => .ok c
  | .folder _ _, _ => .error .EntryIsNotAFileError

/-- Whether a read or write result failed with `FileIsReadOnlyError`. -/
def isReadOnlyFailure : Except FsError (List Nat) → Bool
  | .error .FileIsReadOnlyError => true
  | _ => false

/-- Modelled from the spec: `Entry.delete()` applied to the entry at a
given path below a child list (source lines 122-125): the entry is
removed from the file system, and if it is a folder all its contents
are removed with it. -/
def deleteEntry : List Entry → List String → List Entry
  | ns, [] => ns
  | ns, [x] => ns.filter (fun n => n.name ≠ x)
  | ns, x :: y :: rest =>
      ns.map (fun n =>
        if n.name = x then n.setChildren (deleteEntry n.children (y :: rest)) else n)

/-- Modelled from the spec: `Folder.getEntry(path)` (source line 252)
resolves a relative path below a child list; `none` models the
not-found failure, for which the declared error taxonomy has no named
kind. -/
def Folder.getEntry : List Entry → List String → Option Entry
  | _, [] => none
  | ns, [x] => ns.find? (fun n => n.name = x)
  | ns, x :: y :: rest =>
      match ns.find? (fun n => n.name = x) with
      | some n => Folder.getEntry n.children (y :: rest)
      | none => none

/-- Options for `FileSystemProvider.getFileForOpening` (source type
`GetFileForOpeningOptions`, lines 30-34). -/
structure GetFileForOpeningOptions where
  initialDomain : Option Domain
  types : List String
  allowMultiple : Bool

/-- The default options declared on the `getFileForOpening` parameter in
the source (lines 216-219): `allowMultiple: false`, `types: ['.*']`. -/
def defaultGetFileForOpeningOptions : GetFileForOpeningOptions :=
  { initialDomain := none, types := [".*"], allowMultiple := false }

/-- Modelled from the spec: a provider with the file selection made in
the external user-facing picker; the picker applies the `types` filter
before the selection reaches the API. -/
structure FileSystemProvider where
  pickerSelection : List Entry

/-- Modelled from the spec: `FileSystemProvider.getFileForOpening`
(source lines 216-219); `allowMultiple` governs the cardinality of the
result, so a single-selection call keeps at most one picked file. -/
def FileSystemProvider.getFileForOpening (P : FileSystemProvider)
    (opts : GetFileForOpeningOptions) : List Entry :=
  if opts.allowMultiple then P.pickerSelection else P.pickerSelection.take 1

/-- Modelled from the spec: `getFileForOpening` with its options
argument optional; when omitted, the defaults declared in the source
apply. -/
def FileSystemProvider.getFileForOpeningOpt (P : FileSystemProvider)
    (opts : Option GetFileForOpeningOptions) : List Entry :=
  P.getFileForOpening (opts.getD defaultGetFileForOpeningOptions)

end storage

namespace storage

/-- The name of an entry is unchanged by `setChildren`. -/
theorem Entry.name_setChildren (n : Entry) (cs : List Entry) :
    (n.setChildren cs).name = n.name := by
  cases n <;> rfl

/-- The name of a renamed entry is the new name. -/
theorem Entry.name_rename (n : Entry) (nm : String) :
    (n.rename nm).name = nm := by
  cases n <;> rfl

/-- Path lookup below an empty child list finds nothing. -/
theorem Folder.getEntry_nil (p : List String) : Folder.getEntry [] p = none := by
  match p with
  | [] => rfl
  | [x] => rfl
  | x :: y :: rest => rfl

/-- Claim C4: for every valid entry, exactly one of `File.isFile` and
`Folder.isFolder` holds — the two static predicates partition the valid
entries. -/
theorem isFile_isFolder_partition (n : Entry) :
    (File.isFile (Value.entryVal n) = true ∧ Folder.isFolder (Value.entryVal n) = false) ∨
    (File.isFile (Value.entryVal n) = false ∧ Folder.isFolder (Value.entryVal n) = true) := by
  cases n with
  | file nm m c => exact Or.inl ⟨rfl, rfl⟩
  | folder nm cs => exact Or.inr ⟨rfl, rfl⟩

/-- Claim C8: `File.isFile` is total on arbitrary input: it returns
false on `null` and on `undefined`, and returns false on every value
that is not a valid Entry, never failing. -/
theorem isFile_safe :
    File.isFile Value.null = false ∧
    File.isFile Value.undefined = false ∧
    ∀ v : Value, v.isEntry = false → File.isFile v = false := by
  refine ⟨rfl, rfl, ?_⟩
  intro v hv
  cases v with
  | null => rfl
  | undefined => rfl
  | entryVal n => exact absurd hv (by simp [Value.isEntry])
  | otherVal s => rfl

/-- Witness for C8 at a concrete non-Entry input. -/
theorem isFile_safe_witness : File.isFile (Value.otherVal "42") = false :=
  isFile_safe.2.2 (Value.otherVal "42") rfl

/-- Claim C9: the metadata of any folder has size zero. -/
theorem folder_metadata_size_zero (nm : String) (cs : List Entry) :
    (Entry.getMetadata (Entry.folder nm cs)).size = 0 := rfl

/-- Claim C1: when the destination folder already holds a child with
the same name and overwrite is false, `copyTo` fails with
`EntryExistsError` and the child list of the destination is exactly the
same after the failed call as before it; the source entry, a pure value
of this embedding, is untouched by the call. -/
theorem copyTo_exists_error (E : Entry) (D : List Entry)
    (hcol : D.any (fun n => n.name = E.name) = true) :
    Entry.copyTo E D { overwrite := false } = .error .EntryExistsError ∧
    copyToChildren E D { overwrite := false } = D := by
  constructor
  · simp [Entry.copyTo, hcol]
  · simp [copyToChildren, Entry.copyTo, hcol]

/-- Witness for C1 at a concrete colliding destination. -/
theorem copyTo_exists_error_witness :
    Entry.copyTo (Entry.file "a" Mode.readWrite []) [Entry.file "a" Mode.readWrite [7]]
      { overwrite := false } = .error .EntryExistsError ∧
    copyToChildren (Entry.file "a" Mode.readWrite []) [Entry.file "a" Mode.readWrite [7]]
      { overwrite := false } = [Entry.file "a" Mode.readWrite [7]] :=
  copyTo_exists_error (Entry.file "a" Mode.readWrite [])
    [Entry.file "a" Mode.readWrite [7]] (by decide)

/-- Counterexample to claim C2 as stated: the claim quantifies over
every file, but for a read-only file the write fails (claim C5 and the
source doc comment on `write`), the file keeps its prior content, and
the subsequent read does not yield the concatenation. -/
theorem write_read_readonly_cex :
    readFile
        (writeApply (Entry.file "f" Mode.readOnly [1]) (FileData.binary [2])
          { format := none, append := true })
        { format := none }
      ≠ .ok ([1] ++ encode (FileData.binary [2])) := by
  simp [readFile, writeApply, writeFile, encode]

/-- Claim C2 (amended): for every file whose mode is readWrite, every
prior content and every data value of a declared format, writing with
append true and then reading yields the prior content concatenated with
the data; writing with append false fully replaces the prior content,
so the subsequent read yields exactly the data. -/
theorem write_append_read (nm : String) (c : List Nat) (d : FileData)
    (fo fo2 : Option FileFormat) (ro : FileReadOptions) :
    readFile (writeApply (Entry.file nm Mode.readWrite c) d
        { format := fo, append := true }) ro = .ok (c ++ encode d) ∧
    readFile (writeApply (Entry.file nm Mode.readWrite c) d
        { format := fo2, append := false }) ro = .ok (encode d) := by
  constructor <;> simp [readFile, writeApply, writeFile]

/-- Claim C5: every write to a read-only file fails with
`FileIsReadOnlyError`, for all data and options, and no read ever
fails with `FileIsReadOnlyError`, for any entry and options. -/
theorem readonly_write_error_read_never (nm : String) (c : List Nat)
    (d : FileData) (wo : FileWriteOptions) :
    writeFile (Entry.file nm Mode.readOnly c) d wo = .error .FileIsReadOnlyError ∧
    ∀ (f : Entry) (ro : FileReadOptions), isReadOnlyFailure (readFile f ro) = false := by
  constructor
  · simp [writeFile]
  · intro f ro
    cases f <;> rfl

/-- Counterexample to claim C6 as stated: the claim quantifies over
every new name, but when the new name equals the original name of the
moved entry, the destination child list cannot both contain the new
name and contain no entry with the original name; moving a file named
a with newName a produces a destination containing a. -/
theorem moveTo_newName_cex :
    ¬ (∀ S2 D2 : List Entry,
        Entry.moveTo (Entry.file "a" Mode.readWrite [])
            [Entry.file "a" Mode.readWrite []] []
            { overwrite := false, newName := some "a" } = .ok (S2, D2) →
        (D2.any (fun n => n.name = "a") = true ∧
         D2.all (fun n => n.name ≠ "a") = true ∧
         S2.all (fun n => n.name ≠ "a") = true)) := by
  intro h
  have h2 := h [] [Entry.file "a" Mode.readWrite []] (by rfl)
  simp [Entry.name] at h2

/-- Claim C6 (amended): when a move with a new name succeeds, the new
name differs from the original name of the entry, and the destination
held no child under the original name before the move, then the
destination child list contains an entry named with the new name,
contains no entry with the original name, and the source child list no
longer contains an entry with the original name. -/
theorem moveTo_newName (E : Entry) (S D : List Entry) (o : Bool) (N : String)
    (S2 D2 : List Entry)
    (hmove : Entry.moveTo E S D { overwrite := o, newName := some N } = .ok (S2, D2))
    (hNe : N ≠ E.name)
    (hD : D.all (fun n => n.name ≠ E.name) = true) :
    D2.any (fun n => n.name = N) = true ∧
    D2.all (fun n => n.name ≠ E.name) = true ∧
    S2.all (fun n => n.name ≠ E.name) = true := by
  rw [Entry.moveTo] at hmove
  simp only [Option.getD_some] at hmove
  split at hmove
  · exact absurd hmove (by simp)
  · rw [Except.ok.injEq, Prod.mk.injEq] at hmove
    obtain ⟨hS, hDd⟩ := hmove
    refine ⟨?_, ?_, ?_⟩
    · subst hDd
      simp [List.any_append, Entry.name_rename]
    · subst hDd
      rw [List.all_append]
      refine (Bool.and_eq_true _ _).mpr ⟨?_, ?_⟩
      · rw [List.all_eq_true]
        intro n hn
        have hmem := (List.mem_filter.mp hn).1
        have := (List.all_eq_true.mp hD) n hmem
        exact this
      · simp [Entry.name_rename, hNe]
    · subst hS
      rw [List.all_eq_true]
      intro n hn
      have := (List.mem_filter.mp hn).2
      simpa using this

/-- Witness for C6 (amended) at a concrete move with a fresh name. -/
theorem moveTo_newName_witness :
    ([Entry.file "b" Mode.readWrite []] : List Entry).any (fun n => n.name = "b") = true ∧
    ([Entry.file "b" Mode.readWrite []] : List Entry).all
      (fun n => n.name ≠ (Entry.file "a" Mode.readWrite []).name) = true ∧
    ([] : List Entry).all (fun n => n.name ≠ (Entry.file "a" Mode.readWrite []).name) = true :=
  moveTo_newName (Entry.file "a" Mode.readWrite [])
    [Entry.file "a" Mode.readWrite []] [] false "b"
    [] [Entry.file "b" Mode.readWrite []] (by rfl) (by decide) (by rfl)

/-- Claim C7: a call to `getFileForOpening` whose options set
`allowMultiple` to false resolves to at most one file. -/
theorem getFileForOpening_single (P : FileSystemProvider)
    (opts : GetFileForOpeningOptions) (h : opts.allowMultiple = false) :
    (P.getFileForOpening opts).length ≤ 1 := by
  rw [FileSystemProvider.getFileForOpening, h]
  simp only [Bool.false_eq_true, if_false]
  exact List.length_take_le 1 P.pickerSelection

/-- Witness for C7 at a concrete provider with two picked files. -/
theorem getFileForOpening_single_witness :
    (FileSystemProvider.getFileForOpening
      ⟨[Entry.file "a" Mode.readWrite [], Entry.file "b" Mode.readWrite []]⟩
      { initialDomain := none, types := [".*"], allowMultiple := false }).length ≤ 1 :=
  getFileForOpening_single
    ⟨[Entry.file "a" Mode.readWrite [], Entry.file "b" Mode.readWrite []]⟩
    { initialDomain := none, types := [".*"], allowMultiple := false } rfl

/-- Claim C10: calling `getFileForOpening` with the options argument
omitted behaves exactly as the explicit call with the declared defaults
(allowMultiple false and types containing the match-all pattern), and
in particular resolves to at most one file. -/
theorem getFileForOpening_defaults (P : FileSystemProvider) :
    P.getFileForOpeningOpt none =
      P.getFileForOpening { initialDomain := none, types := [".*"], allowMultiple := false } ∧
    (P.getFileForOpeningOpt none).length ≤ 1 := by
  constructor
  · rfl
  · rw [FileSystemProvider.getFileForOpeningOpt]
    rw [Option.getD_none]
    rw [FileSystemProvider.getFileForOpening]
    simp only [defaultGetFileForOpeningOptions, Bool.false_eq_true, if_false]
    exact List.length_take_le 1 P.pickerSelection

/-- Path lookup after a recursive delete: the entry deleted at any
nonempty path is gone, together with every path that extends the
deleted path. -/
theorem getEntry_delete_eq_none :
    (p : List String) → (ns : List Entry) → (q : List String) → p ≠ [] →
    Folder.getEntry (deleteEntry ns p) (p ++ q) = none
  | [], _, _, h => absurd rfl h
  | [x], ns, q, _ => by
      have hf : (ns.filter (fun n => n.name ≠ x)).find? (fun n => n.name = x) = none := by
        rw [List.find?_eq_none]
        intro a ha
        simpa using (List.mem_filter.mp ha).2
      cases q with
      | nil => exact hf
      | cons z zs =>
          have hunfold :
              Folder.getEntry (deleteEntry ns [x]) ([x] ++ z :: zs)
                = match (ns.filter (fun n => n.name ≠ x)).find? (fun n => n.name = x) with
                  | some n => Folder.getEntry n.children (z :: zs)
                  | none => none := rfl
          rw [hunfold, hf]
  | x :: y :: rest, ns, q, _ => by
      have hgname : ∀ n : Entry,
          ((if n.name = x then n.setChildren (deleteEntry n.children (y :: rest)) else n).name)
            = n.name := by
        intro n
        split
        · exact Entry.name_setChildren n _
        · rfl
      have hpred :
          ((fun n : Entry => decide (n.name = x)) ∘ fun n =>
            if n.name = x then n.setChildren (deleteEntry n.children (y :: rest)) else n)
            = fun n : Entry => decide (n.name = x) := by
        funext n
        simp only [Function.comp_apply]
        rw [hgname n]
      have hfind :
          (ns.map (fun n =>
              if n.name = x then n.setChildren (deleteEntry n.children (y :: rest)) else n)).find?
              (fun n => n.name = x)
            = Option.map (fun n =>
                if n.name = x then n.setChildren (deleteEntry n.children (y :: rest)) else n)
                (ns.find? (fun n => n.name = x)) := by
        rw [List.find?_map, hpred]
      have hunfold :
          Folder.getEntry (deleteEntry ns (x :: y :: rest)) ((x :: y :: rest) ++ q)
            = match (ns.map (fun n =>
                if n.name = x then n.setChildren (deleteEntry n.children (y :: rest)) else n)).find?
                (fun n => n.name = x) with
              | some n => Folder.getEntry n.children (y :: (rest ++ q))
              | none => none := rfl
      rw [hunfold, hfind]
      cases hns : ns.find? (fun n => n.name = x) with
      | none => rfl
      | some n =>
          have hname : n.name = x := by
            have h3 := List.find?_some hns
            simpa using h3
          simp only [Option.map]
          rw [if_pos hname]
          cases n with
          | file nm m c =>
              exact Folder.getEntry_nil _
          | folder nm cs =>
              have hrec := getEntry_delete_eq_none (y :: rest) cs q (List.cons_ne_nil y rest)
              simpa using hrec

/-- Claim C3: deleting the folder at any nonempty path removes it and,
recursively, every descendant: after the delete, path lookup of the
deleted path and of any former descendant path yields the not-found
result. -/
theorem delete_removes_descendants (ns : List Entry) (x : String) (rest q : List String) :
    Folder.getEntry (deleteEntry ns (x :: rest)) ((x :: rest) ++ q) = none :=
  getEntry_delete_eq_none (x :: rest) ns q (List.cons_ne_nil x rest)

end storage
